import Mathlib

/-!
Verification of the layered cache + fuzzy-resolution engine of the
wa-pocket-assistant repository, shallowly embedded in Lean 4.

The embedding translates the TypeScript sources directly:

* `contactStore.ts` (duplicated in the unnamed handler file): the
  persistent contact key-value cache (`addContactToStore`,
  `savePersistedContacts`, the debounced save);
* `groupsStorage.ts` / `historyStorage.ts`: the TTL snapshot stores
  (`loadGroups`, `loadGroupHistory`, `cleanExpiredHistoryCache`);
* `contactExtractor.ts` / the group-manager section: the fuzzy resolver
  (`findContactByName`, `findGroupByName`), the reconciliation read path
  (`getAllGroups`) and the rate-limited metadata queue
  (`fetchMetadataWithRateLimit`, `processMetadataQueue`).

JavaScript strings are modelled by Lean `String`; JS objects with string
keys are modelled by insertion-ordered association lists, matching the
enumeration order of `Object.entries` / `Map.prototype.values` for the
string keys the program uses.  Timestamps (`Date.now()`, epoch
milliseconds) are `Nat`.  The float division `(now - t) / 3_600_000 > h`
used by the TTL checks is modelled by the exact equivalent comparison
`h * 3_600_000 < now - t` in milliseconds (JS negative ages compare the
same way as the truncated `Nat` subtraction: both sides yield "not
expired").
-/

/-! ### JavaScript string primitives -/

/-- `charsStartWith hay need` : `need` is a prefix of `hay` (character lists). -/
def charsStartWith : List Char → List Char → Bool
  | _, [] => true
  | [], _ :: _ => false
  | a :: as, b :: bs => a == b && charsStartWith as bs

/-- `charsContain hay need` : `need` occurs contiguously inside `hay`.
Mirrors JS `String.prototype.includes`; in particular every string
contains the empty string. -/
def charsContain : List Char → List Char → Bool
  | [], need => need.isEmpty
  | a :: as, need => charsStartWith (a :: as) need || charsContain as need

/-- JS `hay.includes(need)`. -/
def strContains (hay need : String) : Bool :=
  charsContain hay.toList need.toList

/-- Lower-casing of one character as performed by JS
`String.prototype.toLowerCase` on the Basic Latin and Latin-1 ranges
(the only characters the repository's names and queries use): ASCII
`A`–`Z` and Latin-1 `À`–`Þ` (except `×`) map down by `0x20`. -/
def jsCharLower (c : Char) : Char :=
  if 65 ≤ c.toNat ∧ c.toNat ≤ 90 then Char.ofNat (c.toNat + 32)
  else if 192 ≤ c.toNat ∧ c.toNat ≤ 222 ∧ c.toNat ≠ 215 then Char.ofNat (c.toNat + 32)
  else c

/-- JS `s.toLowerCase()` (restricted to Latin-1, see `jsCharLower`). -/
def jsToLower (s : String) : String :=
  String.mk (s.toList.map jsCharLower)

/-- The whitespace class trimmed by JS `String.prototype.trim` and matched
by the regex class `\s` (restricted to the ASCII whitespace characters). -/
def jsIsWhitespace (c : Char) : Bool :=
  c == ' ' || c == '\t' || c == '\n' || c == '\r' || c == '\x0b' || c == '\x0c'

/-- JS `s.trim()`: strip leading and trailing whitespace. -/
def jsTrim (s : String) : String :=
  String.mk (((s.toList.dropWhile jsIsWhitespace).reverse.dropWhile jsIsWhitespace).reverse)

/-- JS `s.split(' ')`: split on every single space, keeping empty pieces. -/
def splitOnSpace (s : String) : List String :=
  s.split (fun c => c == ' ')

/-! ### Contact store (`contactStore.ts`)

A stored `ContactInfo` object.  After the store's merge, a property that
is absent and a property that is present with value `undefined` are
observationally identical for every use the program makes of stored
records (reads via `contact.name || …`, the `!==` comparisons of
`hasNewInfo`, and `JSON.stringify`, which drops `undefined` values), so
stored fields are `Option String` with `none` for undefined/absent. -/
structure ContactInfo where
  name : Option String
  notify : Option String
  pushName : Option String
deriving DecidableEq, Repr

/-- The argument object passed to `addContactToStore`.  Here the
distinction between an absent property and a property explicitly set to
`undefined` matters, because the object spread `{...existing, ...info}`
copies present-but-`undefined` properties over the existing ones while
leaving absent properties alone.  `none` = property absent,
`some none` = property present with value `undefined`,
`some (some s)` = property present with string value `s`. -/
structure ContactArg where
  name : Option (Option String)
  notify : Option (Option String)
  pushName : Option (Option String)
deriving DecidableEq, Repr

/-- The in-memory contact store: a JS object keyed by jid, modelled as an
insertion-ordered association list (the key order of `Object.entries`). -/
abbrev ContactStore := List (String × ContactInfo)

/-- `contactStore[jid]` (`undefined` when the key is absent). -/
def storeLookup (st : ContactStore) (jid : String) : Option ContactInfo :=
  (st.find? (fun e => e.1 == jid)).map (·.2)

/-- `contactStore[jid] = v`: update in place when the key exists
(preserving insertion order), append otherwise. -/
def storeSet (st : ContactStore) (jid : String) (v : ContactInfo) : ContactStore :=
  if st.any (fun e => e.1 == jid) then
    st.map (fun e => if e.1 == jid then (jid, v) else e)
  else st ++ [(jid, v)]

/-- The object spread `{ ...contactStore[jid], ...contactInfo }`:
per field, a property present in `contactInfo` (even with value
`undefined`) overwrites; an absent property keeps the existing value
(or `undefined` when the record did not exist). -/
def mergeContact (existing : Option ContactInfo) (info : ContactArg) : ContactInfo :=
  let base := existing.getD ⟨none, none, none⟩
  ⟨info.name.getD base.name, info.notify.getD base.notify,
   info.pushName.getD base.pushName⟩

/-- The `hasNewInfo` test of `addContactToStore`: the record is new, or
some property value read from `contactInfo` (reading an absent property
yields `undefined`, hence the `Option.join`) differs from the stored one. -/
def hasNewInfo (existing : Option ContactInfo) (info : ContactArg) : Bool :=
  match existing with
  | none => true
  | some ex =>
      info.name.join != ex.name || info.notify.join != ex.notify ||
      info.pushName.join != ex.pushName

/-- `addContactToStore(jid, contactInfo)` from `contactStore.ts` (and its
duplicate in the unnamed handler file).  Returns the updated store and
whether `debouncedSaveContacts()` was called (a persistence write was
scheduled). -/
def addContactToStore (jid : String) (info : ContactArg) (st : ContactStore) :
    ContactStore × Bool :=
  if strContains jid "@s.whatsapp.net" || strContains jid "@g.us" then
    let existing := storeLookup st jid
    (storeSet st jid (mergeContact existing info), hasNewInfo existing info)
  else
    (st, false)

/-! ### Debounced persistence (`debouncedSaveContacts`, `savePersistedContacts`)

The debounce is a single cancellable 5-second timer.  While no timer
expires (all activity within one quiet period) the only observable state
is whether a timer is pending; firing the pending timer performs one
flush of the then-current store. -/

/-- State of the contact store together with its debounce timer. -/
structure DebounceState where
  store : ContactStore
  timerPending : Bool
deriving DecidableEq, Repr

/-- One `addContactToStore` call while no timer has yet expired: the
store is updated and, when the call reports new information, the
debounced save is (re)scheduled — a pending timer is cancelled and a
fresh one set, which within one quiet period keeps exactly one timer
pending. -/
def debouncePut (s : DebounceState) (call : String × ContactArg) : DebounceState :=
  let r := addContactToStore call.1 call.2 s.store
  { store := r.1, timerPending := s.timerPending || r.2 }

/-- A burst of `addContactToStore` calls, all within the debounce quiet
period (no timer fires in between). -/
def debounceRun (s : DebounceState) (calls : List (String × ContactArg)) : DebounceState :=
  calls.foldl debouncePut s

/-- The quiet period ends: a pending timer fires `savePersistedContacts`
once on the current store; no pending timer means no flush.  Returns the
number of flushes performed and the content of the flush (the store). -/
def debounceFire (s : DebounceState) : Nat × ContactStore :=
  if s.timerPending then (1, s.store) else (0, s.store)

/-! ### savePersistedContacts and the backup file

The on-disk contact files are modelled by the (parsed) value they hold;
`none` means the file does not exist. -/

/-- The pair of contact files on disk. -/
structure ContactFiles where
  primary : Option ContactStore
  backup : Option ContactStore
deriving DecidableEq, Repr

/-- The file operations `savePersistedContacts` performs, in order. -/
inductive FileOp where
  | copyPrimaryToBackup
  | writePrimary
deriving DecidableEq, Repr

/-- `savePersistedContacts(contacts)` from `contactStore.ts`: when the
primary file exists, first copy it to the backup path, then write the
new content to the primary path.  Returns the resulting files and the
ordered trace of file operations performed. -/
def savePersistedContacts (contacts : ContactStore) (files : ContactFiles) :
    ContactFiles × List FileOp :=
  let step1 : ContactFiles × List FileOp :=
    if files.primary.isSome then
      ({ files with backup := files.primary }, [FileOp.copyPrimaryToBackup])
    else
      (files, [])
  ({ step1.1 with primary := some contacts }, step1.2 ++ [FileOp.writePrimary])

/-! ### Groups TTL snapshot store (`groupsStorage.ts`) -/

/-- `GroupInfo` from the group-manager module. -/
structure GroupInfo where
  jid : String
  name : String
  description : Option String
  participantCount : Nat
deriving DecidableEq, Repr

/-- `GroupsData`, the persisted snapshot envelope of `groupsStorage.ts`. -/
structure GroupsData where
  lastUpdated : Nat
  groups : List GroupInfo
  version : String
deriving DecidableEq, Repr

/-- A `GroupsStorage` instance (construction parameter `cacheExpiryHours`). -/
structure GroupsStorage where
  cacheExpiryHours : Nat
deriving DecidableEq, Repr

/-- The instance the group manager constructs: `new GroupsStorage('groups_cache.json', 24)`. -/
def groupsStorage : GroupsStorage := ⟨24⟩

/-- `GroupsStorage.loadGroups()`: `disk` is the parsed content of the
snapshot file (`none` for a missing or unparsable file, which the
`catch` turns into `[]`), `now` is `Date.now()` in ms.  The age check
`(now - lastUpdated) / 3_600_000 > cacheExpiryHours` is written as the
equivalent comparison in milliseconds.  Returns `[]` as the miss value,
exactly as the source does. -/
def loadGroups (s : GroupsStorage) (disk : Option GroupsData) (now : Nat) :
    List GroupInfo :=
  match disk with
  | none => []
  | some d =>
      if s.cacheExpiryHours * 3600000 < now - d.lastUpdated then []
      else d.groups

/-! ### History TTL snapshot store (`historyStorage.ts`) -/

/-- `FormattedMessage` from `historyStorage.ts` (`type` is one of
`text`, `media`, `system`). -/
structure FormattedMessage where
  timestamp : String
  sender : String
  content : String
  msgType : String
  messageId : Option String
deriving DecidableEq, Repr

/-- `GroupHistoryData`, the per-conversation snapshot envelope. -/
structure GroupHistoryData where
  groupJid : String
  groupName : String
  messages : List FormattedMessage
  fetchedAt : Nat
  messageCount : Nat
  period : String
deriving DecidableEq, Repr

/-- `CACHE_DURATION_HOURS` from `historyStorage.ts`. -/
def CACHE_DURATION_HOURS : Nat := 6

/-- `loadGroupHistory(groupJid)`: `disk` is the parsed content of the
group's cache file (`none` for missing/unreadable, which the `catch`
turns into `null`).  Expired caches yield `null`. -/
def loadGroupHistory (disk : Option GroupHistoryData) (now : Nat) :
    Option GroupHistoryData :=
  match disk with
  | none => none
  | some d =>
      if CACHE_DURATION_HOURS * 3600000 < now - d.fetchedAt then none
      else some d

/-! ### Fuzzy contact resolver (`findContactByName` in `contactExtractor.ts`) -/

/-- JS `a || b` on an optional string (an absent/`undefined` value and
the empty string are both falsy). -/
def jsOrStr (a : Option String) (b : String) : String :=
  match a with
  | some s => if s == "" then b else s
  | none => b

/-- `contact.name || contact.notify || contact.pushName || ''`: the best
known name of a stored record. -/
def bestName (c : ContactInfo) : String :=
  jsOrStr c.name (jsOrStr c.notify (jsOrStr c.pushName ""))

/-- The stage-1 substring test of `findContactByName`:
`contactName.includes(searchName) || searchName.includes(contactName)`
on lower-cased names. -/
def substrMatch (searchName : String) (c : ContactInfo) : Bool :=
  let contactName := jsToLower (bestName c)
  strContains contactName searchName || strContains searchName contactName

/-- The stage-2 token-overlap test: some token of the (lower-cased)
query longer than 2 characters is a substring of some token of the
(lower-cased) contact name. -/
def tokenOverlapMatch (searchName : String) (c : ContactInfo) : Bool :=
  let nameParts := splitOnSpace (jsToLower (bestName c))
  let searchParts := splitOnSpace searchName
  searchParts.any (fun sp => nameParts.any
    (fun np => decide (sp.length > 2) && strContains np sp))

/-- `s` with all whitespace and hyphen characters removed: the
`name.replace` call whose regex matches the class `\s` or a hyphen,
replacing with the empty string. -/
def stripSpaceHyphen (s : String) : String :=
  String.mk (s.toList.filter (fun c => !(jsIsWhitespace c || c == '-')))

/-- The regex test `/^\+?\d+$/` of the phone-number fallback. -/
def phoneShape (s : String) : Bool :=
  match s.toList with
  | [] => false
  | '+' :: rest => !rest.isEmpty && rest.all (fun c => '0' ≤ c && c ≤ '9')
  | l => l.all (fun c => '0' ≤ c && c ≤ '9')

/-- The `cleanNumber` computation: strip plus signs, whitespace (`\s`)
and hyphens from the query. -/
def cleanPhoneNumber (s : String) : String :=
  String.mk (s.toList.filter (fun c => !(c == '+' || jsIsWhitespace c || c == '-')))

/-- `findContactByName(sock, name)`.  The external existence probe
`sock.onWhatsApp(potentialJid)` is an oracle `probe`: `some jid` models a
non-empty result whose first entry has `exists = true` (the code then
returns `results[0].jid`); `none` models every other outcome, including
a thrown error (caught and ignored by the source). -/
def findContactByName (probe : String → Option String) (st : ContactStore)
    (name : String) : Option String :=
  let searchName := jsToLower name
  match st.find? (fun e => substrMatch searchName e.2) with
  | some e => some e.1
  | none =>
    match st.find? (fun e => tokenOverlapMatch searchName e.2) with
    | some e => some e.1
    | none =>
      if phoneShape (stripSpaceHyphen name) then
        probe (cleanPhoneNumber name ++ "@s.whatsapp.net")
      else none

/-! ### Group registry read path (`getAllGroups`, `findGroupByName`) -/

/-- The raw per-group object returned by the transport's
`groupFetchAllParticipating`, keyed by jid. -/
structure RawGroup where
  subject : Option String
  desc : Option String
  participants : Option (List String)
deriving DecidableEq, Repr

/-- Building a `GroupInfo` from a fetched entry:
`subject || 'Unknown Group'` and `participants?.length || 0`. -/
def rawToGroupInfo (jid : String) (g : RawGroup) : GroupInfo :=
  { jid := jid
    name := jsOrStr g.subject "Unknown Group"
    description := g.desc
    participantCount := (g.participants.map List.length).getD 0 }

/-- The in-memory groups cache, a JS `Map` in insertion order. -/
abbrev GroupsCache := List (String × GroupInfo)

/-- `groupsCache.set(jid, v)`: update in place, else append (JS `Map` keeps
the original insertion position of an existing key). -/
def cacheSet (m : GroupsCache) (jid : String) (v : GroupInfo) : GroupsCache :=
  if m.any (fun e => e.1 == jid) then
    m.map (fun e => if e.1 == jid then (jid, v) else e)
  else m ++ [(jid, v)]

/-- `checkIfGroupCountChanged(sock, cachedCount)`: the count probe is an
oracle — `Except.ok n` is a successful `groupFetchAllParticipating`
returning `n` groups, `Except.error ()` a thrown error, which the
function catches, returning `false` ("assume cache is still valid"). -/
def checkIfGroupCountChanged (probeResult : Except Unit Nat) (cachedCount : Nat) :
    Bool :=
  match probeResult with
  | .ok currentCount => currentCount != cachedCount
  | .error _ => false

/-- Result of one `getAllGroups` invocation: the value returned or error
thrown, plus the in-memory cache and on-disk snapshot afterwards. -/
structure GetAllGroupsResult where
  result : Except String (List GroupInfo)
  memCache : GroupsCache
  disk : Option GroupsData
deriving Repr

/-- `getAllGroups(sock, forceRefresh)`.  External inputs: the parsed
on-disk snapshot `disk`, the clock `now`, the in-memory cache `mem0`,
the count-probe outcome `probeResult` and the outcome `fetchResult` of
the main `groupFetchAllParticipating` call (`Except.error msg` models a
throw whose `error.message` is `msg`; the list is in `Object.entries`
order).  On a `rate-overlimit` throw the function serves
`groupsStorage.loadGroups()` if non-empty, else the in-memory cache
values; other throws propagate. -/
def getAllGroups (forceRefresh : Bool) (disk : Option GroupsData) (now : Nat)
    (mem0 : GroupsCache) (probeResult : Except Unit Nat)
    (fetchResult : Except String (List (String × RawGroup))) : GetAllGroupsResult :=
  let cachePath : Option (List GroupInfo) :=
    if forceRefresh then none
    else
      let cachedGroups := loadGroups groupsStorage disk now
      if cachedGroups.length > 0 then
        if checkIfGroupCountChanged probeResult cachedGroups.length then none
        else some cachedGroups
      else none
  match cachePath with
  | some cachedGroups =>
      -- groupsCache.clear(); cachedGroups.forEach(g => groupsCache.set(g.jid, g))
      { result := .ok cachedGroups
        memCache := cachedGroups.foldl (fun m g => cacheSet m g.jid g) []
        disk := disk }
  | none =>
    match fetchResult with
    | .ok raws =>
        let groupInfos := raws.map (fun e => rawToGroupInfo e.1 e.2)
        { result := .ok groupInfos
          memCache := groupInfos.foldl (fun m g => cacheSet m g.jid g) mem0
          disk := some { lastUpdated := now, groups := groupInfos, version := "1.0" } }
    | .error msg =>
        if msg == "rate-overlimit" then
          let cachedGroups := loadGroups groupsStorage disk now
          if cachedGroups.length > 0 then
            { result := .ok cachedGroups
              memCache := cachedGroups.foldl (fun m g => cacheSet m g.jid g) mem0
              disk := disk }
          else
            { result := .ok (mem0.map (·.2)), memCache := mem0, disk := disk }
        else
          { result := .error msg, memCache := mem0, disk := disk }

/-- `findGroupByName(groupName)`: exact match on the trimmed, lower-cased
search term over the cache values in insertion order, then a substring
pass, else `null`. -/
def findGroupByName (cache : GroupsCache) (groupName : String) : Option GroupInfo :=
  let searchTerm := jsToLower (jsTrim groupName)
  match (cache.map (·.2)).find? (fun g => jsToLower g.name == searchTerm) with
  | some g => some g
  | none => (cache.map (·.2)).find? (fun g => strContains (jsToLower g.name) searchTerm)

/-! ### Rate-limited metadata queue (`fetchMetadataWithRateLimit`,
`processMetadataQueue`) -/

/-- An entry of `metadataQueue`. -/
structure QueueEntry where
  jid : String
  retryCount : Nat
deriving DecidableEq, Repr

/-- Outcome of one external `sock.groupMetadata(jid)` call: success with
the fetched raw group, a throw with `error.message === 'rate-overlimit'`,
or any other throw. -/
inductive FetchOutcome where
  | success (g : RawGroup)
  | rateLimit
  | failure
deriving Repr

/-- `fetchMetadataWithRateLimit(sock, jid, retryCount)` with the external
call abstracted by the oracle `fetch` (a function of the jid and the
current retry count).  Returns whether the fetch succeeded, the entries
pushed back onto the queue (a single retry entry with `retryCount + 1`
exactly on a rate-limit throw with `retryCount < 3`), and the cache
update performed on success. -/
def fetchMetadataWithRateLimit (fetch : String → Nat → FetchOutcome)
    (e : QueueEntry) : Bool × List QueueEntry × Option GroupInfo :=
  match fetch e.jid e.retryCount with
  | .success g => (true, [], some (rawToGroupInfo e.jid g))
  | .rateLimit =>
      if e.retryCount < 3 then (false, [⟨e.jid, e.retryCount + 1⟩], none)
      else (false, [], none)
  | .failure => (false, [], none)

/-- Termination measure of the drain loop: a successful or dropped entry
disappears (weight at least 1) and a retried entry strictly loses weight. -/
def entryWeight (e : QueueEntry) : Nat := 5 - min e.retryCount 4

/-- Total weight of a queue. -/
def queueWeight (q : List QueueEntry) : Nat := (q.map entryWeight).sum

theorem queueWeight_append (a b : List QueueEntry) :
    queueWeight (a ++ b) = queueWeight a + queueWeight b := by
  simp [queueWeight]

theorem entryWeight_pos (e : QueueEntry) : 0 < entryWeight e := by
  have h : min e.retryCount 4 ≤ 4 := Nat.min_le_right _ _
  simp only [entryWeight]
  omega

/-- The `while (metadataQueue.length > 0)` loop of `processMetadataQueue`:
pop the head, run `fetchMetadataWithRateLimit` on it (appending any
retry entry to the queue), and continue until the queue is empty.
Returns the list of processed entries in processing order together with
the queue left when the loop exits. -/
def drainQueue (fetch : String → Nat → FetchOutcome) :
    List QueueEntry → List QueueEntry × List QueueEntry
  | [] => ([], [])
  | e :: rest =>
      let step := fetchMetadataWithRateLimit fetch e
      let next := drainQueue fetch (rest ++ step.2.1)
      (e :: next.1, next.2)
termination_by q => queueWeight q
decreasing_by
  simp only [queueWeight_append]
  have hw := entryWeight_pos e
  rcases hf : fetch e.jid e.retryCount with g | _ | _
  · simp only [fetchMetadataWithRateLimit, hf]
    simp [queueWeight]
    omega
  · simp only [fetchMetadataWithRateLimit, hf]
    split
    · simp [queueWeight, entryWeight]
      omega
    · simp [queueWeight]
      omega
  · simp only [fetchMetadataWithRateLimit, hf]
    simp [queueWeight]
    omega

/-! ### History cache cleaner (`cleanExpiredHistoryCache`) -/

/-- One value of the history index file (`history_index.json`). -/
structure HistIndexEntry where
  groupName : String
  fetchedAt : Nat
deriving DecidableEq, Repr

/-- The on-disk state of the history cache: the index object and the
per-group snapshot files (keyed by jid; the filename sanitization is
injective on the jids in play, so files are keyed by jid directly). -/
structure HistoryFS where
  index : List (String × HistIndexEntry)
  files : List (String × GroupHistoryData)
deriving DecidableEq, Repr

/-- Association-list lookup used for the files map. -/
def fileLookup (files : List (String × GroupHistoryData)) (jid : String) :
    Option GroupHistoryData :=
  (files.find? (fun e => e.1 == jid)).map (·.2)

/-- One row produced by `getAllCachedHistories`. -/
structure CachedHistoryRow where
  groupJid : String
  groupName : String
  ageMs : Nat
  messageCount : Nat
deriving DecidableEq, Repr

/-- Stable insertion into an age-sorted list (ties keep earlier elements
first). -/
def insertByAge (r : CachedHistoryRow) : List CachedHistoryRow → List CachedHistoryRow
  | [] => [r]
  | x :: xs => if x.ageMs ≤ r.ageMs then x :: insertByAge r xs else r :: x :: xs

/-- The `results.sort((a, b) => a.ageHours - b.ageHours)` call: a stable
sort by age ascending, realised as insertion sort. -/
def sortByAge : List CachedHistoryRow → List CachedHistoryRow
  | [] => []
  | x :: xs => insertByAge x (sortByAge xs)

/-- `getAllCachedHistories()`: enumerate the index, keep the entries
whose snapshot file still exists (reading age and count from the file,
as `getGroupHistoryCacheInfo` does), sorted by age ascending.  Ages are
kept in milliseconds (the source divides by 3 600 000 both when
producing and when comparing them, so the comparisons are unchanged). -/
def getAllCachedHistories (fsState : HistoryFS) (now : Nat) : List CachedHistoryRow :=
  sortByAge (fsState.index.filterMap (fun e =>
    match fileLookup fsState.files e.1 with
    | some d => some { groupJid := e.1, groupName := e.2.groupName,
                       ageMs := now - d.fetchedAt, messageCount := d.messageCount }
    | none => none))

/-- `cleanExpiredHistoryCache()`: for every enumerated history whose age
exceeds the TTL, delete the group's snapshot file.  The index file is
not rewritten. -/
def cleanExpiredHistoryCache (fsState : HistoryFS) (now : Nat) : HistoryFS :=
  let cachedHistories := getAllCachedHistories fsState now
  { index := fsState.index
    files := fsState.files.filter (fun f =>
      !(cachedHistories.any (fun h =>
        h.groupJid == f.1 && decide (CACHE_DURATION_HOURS * 3600000 < h.ageMs)))) }

/-! ### Helper lemmas on the association-list stores -/

theorem find?_update_of_any {α : Type} (j : String) (v : α) :
    ∀ st : List (String × α), st.any (fun e => e.1 == j) = true →
      (st.map (fun e => if e.1 == j then (j, v) else e)).find?
        (fun e => e.1 == j) = some (j, v) := by
  intro st
  induction st with
  | nil => intro h; simp at h
  | cons e t ih =>
      intro h
      simp only [List.map_cons]
      by_cases he : (e.1 == j) = true
      · rw [if_pos he]
        simp [List.find?_cons]
      · have he' : (e.1 == j) = false := by simpa using he
        rw [if_neg he]
        simp only [List.find?_cons, he']
        simp only [List.any_cons, he', Bool.false_or] at h
        exact ih h

theorem storeLookup_storeSet_self (st : ContactStore) (j : String) (v : ContactInfo) :
    storeLookup (storeSet st j v) j = some v := by
  unfold storeLookup storeSet
  by_cases h : st.any (fun e => e.1 == j) = true
  · rw [if_pos h, find?_update_of_any j v st h]
    rfl
  · rw [if_neg h, List.find?_append]
    have hf : st.find? (fun e => e.1 == j) = none := by
      rw [List.find?_eq_none]
      intro x hx
      have := List.any_eq_false.mp (Bool.eq_false_iff.mpr h) x hx
      simpa using this
    rw [hf]
    simp

/-- **C1** (amended).  For every WhatsApp identifier, `addContactToStore`
stores the object-spread merge of the existing record with the argument:
a property *present* in the argument overwrites the stored field — even
when its value is `undefined`, which erases the stored value — while a
property *absent* from the argument keeps the previously stored value.
(The claim as frozen, that every null/absent field preserves the stored
value, fails for present-but-`undefined` properties; see the
counterexample.) -/
theorem put_merges_present_fields_overwrite (st : ContactStore) (jid : String)
    (info : ContactArg)
    (h : strContains jid "@s.whatsapp.net" = true ∨ strContains jid "@g.us" = true) :
    ∃ r, storeLookup (addContactToStore jid info st).1 jid = some r ∧
      r.name = info.name.getD (((storeLookup st jid).getD ⟨none, none, none⟩).name) ∧
      r.notify = info.notify.getD (((storeLookup st jid).getD ⟨none, none, none⟩).notify) ∧
      r.pushName =
        info.pushName.getD (((storeLookup st jid).getD ⟨none, none, none⟩).pushName) := by
  have hcond : (strContains jid "@s.whatsapp.net" || strContains jid "@g.us") = true := by
    rcases h with h | h <;> simp [h]
  refine ⟨mergeContact (storeLookup st jid) info, ?_, rfl, rfl, rfl⟩
  simp only [addContactToStore, hcond, if_true]
  exact storeLookup_storeSet_self st jid (mergeContact (storeLookup st jid) info)

/-- Witness for `put_merges_present_fields_overwrite` at a concrete input. -/
theorem put_merges_present_fields_overwrite_witness :
    (strContains "1@s.whatsapp.net" "@s.whatsapp.net" = true ∨
      strContains "1@s.whatsapp.net" "@g.us" = true) ∧
    (∃ r, storeLookup (addContactToStore "1@s.whatsapp.net"
        ⟨some (some "Bob"), none, none⟩ []).1 "1@s.whatsapp.net" = some r ∧
      r.name = (some (some "Bob") : Option (Option String)).getD
        (((storeLookup [] "1@s.whatsapp.net").getD ⟨none, none, none⟩).name) ∧
      r.notify = (none : Option (Option String)).getD
        (((storeLookup [] "1@s.whatsapp.net").getD ⟨none, none, none⟩).notify) ∧
      r.pushName = (none : Option (Option String)).getD
        (((storeLookup [] "1@s.whatsapp.net").getD ⟨none, none, none⟩).pushName)) :=
  ⟨Or.inl (by decide),
   put_merges_present_fields_overwrite [] "1@s.whatsapp.net"
     ⟨some (some "Bob"), none, none⟩ (Or.inl (by decide))⟩

/-- **C1** counterexample.  The store maps the identifier to a record
with `name = "Alice"`; the argument object carries the property `name`
with value `undefined` (as the message extractor builds with
`name: bestName ? bestName : undefined`).  The claim says the stored
name is preserved; the object spread instead erases it. -/
theorem put_undefined_property_clobbers_cex :
    (storeLookup (addContactToStore "1@s.whatsapp.net" ⟨some none, none, none⟩
        [("1@s.whatsapp.net", ⟨some "Alice", none, none⟩)]).1
        "1@s.whatsapp.net").map ContactInfo.name ≠ some (some "Alice") ∧
    (storeLookup (addContactToStore "1@s.whatsapp.net" ⟨some none, none, none⟩
        [("1@s.whatsapp.net", ⟨some "Alice", none, none⟩)]).1
        "1@s.whatsapp.net").map ContactInfo.name = some none := by
  constructor <;> decide

/-- **C9**.  An identifier whose string contains neither
`@s.whatsapp.net` nor `@g.us` leaves the contact store unchanged and
schedules no persistence write: `addContactToStore` returns the store
untouched and reports that `debouncedSaveContacts` was not called. -/
theorem addContact_ignores_non_whatsapp_jid (st : ContactStore) (jid : String)
    (info : ContactArg)
    (h1 : strContains jid "@s.whatsapp.net" = false)
    (h2 : strContains jid "@g.us" = false) :
    addContactToStore jid info st = (st, false) := by
  simp [addContactToStore, h1, h2]

/-- Witness for `addContact_ignores_non_whatsapp_jid` on a `@lid`
internal identifier. -/
theorem addContact_ignores_non_whatsapp_jid_witness :
    strContains "77@lid" "@s.whatsapp.net" = false ∧
    strContains "77@lid" "@g.us" = false ∧
    addContactToStore "77@lid" ⟨some (some "X"), none, none⟩
        [("1@s.whatsapp.net", ⟨some "A", none, none⟩)] =
      ([("1@s.whatsapp.net", ⟨some "A", none, none⟩)], false) :=
  ⟨by decide, by decide,
   addContact_ignores_non_whatsapp_jid [("1@s.whatsapp.net", ⟨some "A", none, none⟩)]
     "77@lid" ⟨some (some "X"), none, none⟩ (by decide) (by decide)⟩

/-- The store obtained by applying a sequence of `addContactToStore`
calls in order. -/
def applyCalls (st0 : ContactStore) (calls : List (String × ContactArg)) : ContactStore :=
  calls.foldl (fun st c => (addContactToStore c.1 c.2 st).1) st0

/-- Whether some call of the sequence reports new information at its
turn (i.e. causes `debouncedSaveContacts` to be called). -/
def anySchedules (st0 : ContactStore) : List (String × ContactArg) → Bool
  | [] => false
  | c :: rest =>
      (addContactToStore c.1 c.2 st0).2 ||
        anySchedules (addContactToStore c.1 c.2 st0).1 rest

theorem debounceRun_eq (calls : List (String × ContactArg)) :
    ∀ (st0 : ContactStore) (b : Bool),
      debounceRun ⟨st0, b⟩ calls =
        ⟨applyCalls st0 calls, b || anySchedules st0 calls⟩ := by
  induction calls with
  | nil => intro st0 b; simp [debounceRun, applyCalls, anySchedules]
  | cons c rest ih =>
      intro st0 b
      simp only [debounceRun, List.foldl_cons] at *
      rw [show debouncePut ⟨st0, b⟩ c =
            ⟨(addContactToStore c.1 c.2 st0).1,
             b || (addContactToStore c.1 c.2 st0).2⟩ from rfl]
      rw [ih]
      simp [applyCalls, anySchedules, Bool.or_assoc]

/-- **C6**.  A successful flush performed while a primary contacts file
exists first copies that primary file to the backup path and only then
writes the new content: afterwards the backup holds exactly the content
the primary had before the flush, the primary holds the new content, and
the operation trace places the backup copy strictly before the primary
write. -/
theorem flush_backs_up_previous_primary (contacts old : ContactStore)
    (files : ContactFiles) (h : files.primary = some old) :
    (savePersistedContacts contacts files).1.backup = some old ∧
    (savePersistedContacts contacts files).1.primary = some contacts ∧
    (savePersistedContacts contacts files).2 =
      [FileOp.copyPrimaryToBackup, FileOp.writePrimary] := by
  simp [savePersistedContacts, h]

/-- Witness for `flush_backs_up_previous_primary` at a concrete input. -/
theorem flush_backs_up_previous_primary_witness :
    (ContactFiles.mk (some [("1@s.whatsapp.net", ⟨some "A", none, none⟩)]) none).primary =
      some [("1@s.whatsapp.net", ⟨some "A", none, none⟩)] ∧
    ((savePersistedContacts [] ⟨some [("1@s.whatsapp.net", ⟨some "A", none, none⟩)], none⟩).1.backup =
        some [("1@s.whatsapp.net", ⟨some "A", none, none⟩)] ∧
      (savePersistedContacts [] ⟨some [("1@s.whatsapp.net", ⟨some "A", none, none⟩)], none⟩).1.primary =
        some [] ∧
      (savePersistedContacts [] ⟨some [("1@s.whatsapp.net", ⟨some "A", none, none⟩)], none⟩).2 =
        [FileOp.copyPrimaryToBackup, FileOp.writePrimary]) :=
  ⟨rfl, flush_backs_up_previous_primary []
    [("1@s.whatsapp.net", ⟨some "A", none, none⟩)]
    ⟨some [("1@s.whatsapp.net", ⟨some "A", none, none⟩)], none⟩ rfl⟩

/-- **C7** (amended).  For a burst of `addContactToStore` calls that all
fall inside one debounce quiet period, at most one flush happens when
the quiet period ends; a flush happens exactly when at least one call of
the burst reported new information for a WhatsApp identifier (only such
calls schedule the debounced save); and the flushed content is the store
after all the calls' merges.  (The frozen claim's "exactly one flush for
every N ≥ 1 puts" fails when no call schedules; see the counterexample.) -/
theorem debounce_coalesces_to_single_flush (st0 : ContactStore)
    (calls : List (String × ContactArg)) :
    (debounceFire (debounceRun ⟨st0, false⟩ calls)).1 ≤ 1 ∧
    ((debounceFire (debounceRun ⟨st0, false⟩ calls)).1 = 1 ↔
      anySchedules st0 calls = true) ∧
    (debounceFire (debounceRun ⟨st0, false⟩ calls)).2 = applyCalls st0 calls := by
  rw [debounceRun_eq calls st0 false]
  simp only [debounceFire, Bool.false_or]
  refine ⟨?_, ?_, ?_⟩
  · split <;> omega
  · split
    · simp_all
    · simp_all
  · split <;> rfl

/-- **C7** counterexample.  A single `addContactToStore` call inside the
quiet period that carries no new information (every compared property
equals the stored one) never schedules `debouncedSaveContacts`, so zero
flushes occur — not exactly one. -/
theorem debounce_no_flush_cex :
    (debounceFire (debounceRun
        ⟨[("1@s.whatsapp.net", ⟨some "A", none, none⟩)], false⟩
        [("1@s.whatsapp.net", ⟨some (some "A"), none, none⟩)])).1 = 0 ∧
    ¬ ((debounceFire (debounceRun
        ⟨[("1@s.whatsapp.net", ⟨some "A", none, none⟩)], false⟩
        [("1@s.whatsapp.net", ⟨some (some "A"), none, none⟩)])).1 = 1) := by
  constructor <;> decide

/-- **C2** (amended).  Both TTL stores use a strict age comparison: a
load is a hit whenever `now - capturedAt ≤ TTL` and a miss whenever
`now - capturedAt > TTL` — TTL being 24 h (in ms) for the groups
snapshot and 6 h for conversation history.  In particular a snapshot
whose age equals the TTL exactly is still a hit, not a miss as the
frozen claim states; see the counterexample. -/
theorem ttl_expiry_strict_boundary (d : GroupsData) (hd : GroupHistoryData) (now : Nat) :
    (now - d.lastUpdated ≤ 24 * 3600000 →
      loadGroups groupsStorage (some d) now = d.groups) ∧
    (24 * 3600000 < now - d.lastUpdated →
      loadGroups groupsStorage (some d) now = []) ∧
    ((loadGroupHistory (some hd) now).isSome ↔
      now - hd.fetchedAt ≤ 6 * 3600000) := by
  refine ⟨?_, ?_, ?_⟩
  · intro h
    simp only [loadGroups, groupsStorage]
    rw [if_neg]
    omega
  · intro h
    simp only [loadGroups, groupsStorage]
    rw [if_pos]
    omega
  · simp only [loadGroupHistory, CACHE_DURATION_HOURS]
    split
    · simp
      omega
    · simp
      omega

/-- Witness for `ttl_expiry_strict_boundary`: a 24-hour-minus-1-second
old groups snapshot is served; a 24-hour-plus-1-second old one is a
miss; a 6-hour-old history snapshot is still a hit. -/
theorem ttl_expiry_strict_boundary_witness :
    (86400000 - 0 ≤ 24 * 3600000 → loadGroups groupsStorage
        (some ⟨0, [⟨"g@g.us", "G", none, 3⟩], "1.0"⟩) 86400000 =
          [⟨"g@g.us", "G", none, 3⟩]) ∧
    (loadGroups groupsStorage (some ⟨0, [⟨"g@g.us", "G", none, 3⟩], "1.0"⟩) 86399000 =
      [⟨"g@g.us", "G", none, 3⟩]) ∧
    (loadGroups groupsStorage (some ⟨0, [⟨"g@g.us", "G", none, 3⟩], "1.0"⟩) 86401000 = []) ∧
    (loadGroupHistory (some ⟨"g@g.us", "G", [], 0, 0, "p"⟩) 21600000).isSome := by
  refine ⟨(ttl_expiry_strict_boundary ⟨0, [⟨"g@g.us", "G", none, 3⟩], "1.0"⟩
      ⟨"g@g.us", "G", [], 0, 0, "p"⟩ 86400000).1, ?_, ?_, ?_⟩
  · exact (ttl_expiry_strict_boundary ⟨0, [⟨"g@g.us", "G", none, 3⟩], "1.0"⟩
      ⟨"g@g.us", "G", [], 0, 0, "p"⟩ 86399000).1 (by decide)
  · exact (ttl_expiry_strict_boundary ⟨0, [⟨"g@g.us", "G", none, 3⟩], "1.0"⟩
      ⟨"g@g.us", "G", [], 0, 0, "p"⟩ 86401000).2.1 (by decide)
  · exact ((ttl_expiry_strict_boundary ⟨0, [⟨"g@g.us", "G", none, 3⟩], "1.0"⟩
      ⟨"g@g.us", "G", [], 0, 0, "p"⟩ 21600000).2.2).mpr (by decide)

/-- **C2** counterexample.  At age exactly equal to the TTL the frozen
claim demands a miss, but both stores serve a hit: a groups snapshot
captured at 0 and read at exactly 24 h is returned, and a history
snapshot read at exactly 6 h is returned. -/
theorem ttl_equality_is_hit_cex :
    loadGroups groupsStorage (some ⟨0, [⟨"g@g.us", "G", none, 3⟩], "1.0"⟩) 86400000 =
      [⟨"g@g.us", "G", none, 3⟩] ∧
    loadGroups groupsStorage (some ⟨0, [⟨"g@g.us", "G", none, 3⟩], "1.0"⟩) 86400000 ≠ [] ∧
    (loadGroupHistory (some ⟨"g@g.us", "G", [], 0, 0, "p"⟩) 21600000).isSome = true := by
  refine ⟨?_, ?_, ?_⟩ <;> decide

/-- **C3**.  `findContactByName` first scans the store in insertion
order with the two-directional case-insensitive substring test and
returns the first matching record's identifier without scoring; the
token-overlap pass (and the later phone fallback) run only when no
record passes the substring test.  In particular, for the directory
`{"A Café": id1}` inserted before `{"café": id2}`, the query `"Café"`
resolves to `id1` for any existence probe. -/
theorem resolver_substring_precedence (probe : String → Option String)
    (st : ContactStore) (name : String) :
    (∀ e, st.find? (fun x => substrMatch (jsToLower name) x.2) = some e →
        findContactByName probe st name = some e.1) ∧
    (st.find? (fun x => substrMatch (jsToLower name) x.2) = none →
        findContactByName probe st name =
          (match st.find? (fun x => tokenOverlapMatch (jsToLower name) x.2) with
           | some e => some e.1
           | none =>
              if phoneShape (stripSpaceHyphen name) then
                probe (cleanPhoneNumber name ++ "@s.whatsapp.net")
              else none)) ∧
    findContactByName probe
      [("id1", ⟨some "A Café", none, none⟩), ("id2", ⟨some "café", none, none⟩)]
      "Café" = some "id1" := by
  refine ⟨?_, ?_, ?_⟩
  · intro e he
    simp only [findContactByName, he]
  · intro hnone
    simp only [findContactByName, hnone]
  · simp only [findContactByName]
    rw [show List.find? (fun x => substrMatch (jsToLower "Café") x.2)
          [("id1", ⟨some "A Café", none, none⟩), ("id2", ⟨some "café", none, none⟩)] =
        some ("id1", ⟨some "A Café", none, none⟩) from by decide]

/-- Witness for `resolver_substring_precedence`: in a one-record store
the substring scan finds the record and the resolver returns its
identifier. -/
theorem resolver_substring_precedence_witness :
    findContactByName (fun _ => none)
      [("7@s.whatsapp.net", ⟨some "Ann Lee", none, none⟩)] "ann" =
      some "7@s.whatsapp.net" :=
  (resolver_substring_precedence (fun _ => none)
    [("7@s.whatsapp.net", ⟨some "Ann Lee", none, none⟩)] "ann").1
    ("7@s.whatsapp.net", ⟨some "Ann Lee", none, none⟩) (by decide)

/-- **C10**.  `findGroupByName` returns a group whose lower-cased name
equals the trimmed, lower-cased query whenever one exists — the exact
pass runs over the whole cache before any substring matching, so an
exact-named group is never shadowed by an earlier substring match — and
falls back to the case-insensitive substring pass only when no exact
match exists, returning `none` when neither pass matches. -/
theorem findGroup_exact_over_substring (cache : GroupsCache) (q : String) :
    ((∃ g ∈ cache.map (·.2), jsToLower g.name = jsToLower (jsTrim q)) →
      ∃ g, findGroupByName cache q = some g ∧
        jsToLower g.name = jsToLower (jsTrim q)) ∧
    ((cache.map (·.2)).find?
        (fun g => jsToLower g.name == jsToLower (jsTrim q)) = none →
      findGroupByName cache q =
        (cache.map (·.2)).find?
          (fun g => strContains (jsToLower g.name) (jsToLower (jsTrim q)))) := by
  constructor
  · rintro ⟨g, hg, hname⟩
    have hsome : ((cache.map (·.2)).find?
        (fun g => jsToLower g.name == jsToLower (jsTrim q))).isSome := by
      rw [List.find?_isSome]
      exact ⟨g, hg, by simp [hname]⟩
    rcases Option.isSome_iff_exists.mp hsome with ⟨g', hg'⟩
    refine ⟨g', ?_, ?_⟩
    · simp only [findGroupByName, hg']
    · have := List.find?_some hg'
      simpa using this
  · intro hnone
    simp only [findGroupByName, hnone]

/-- Witness for `findGroup_exact_over_substring`: the earlier cache
entry `"My Family Chat"` substring-matches the query `" family chat "`
but the later exact-named `"Family Chat"` wins. -/
theorem findGroup_exact_over_substring_witness :
    ∃ g, findGroupByName
        [("1@g.us", ⟨"1@g.us", "My Family Chat", none, 5⟩),
         ("2@g.us", ⟨"2@g.us", "Family Chat", none, 4⟩)] " Family Chat " = some g ∧
      jsToLower g.name = jsToLower (jsTrim " Family Chat ") :=
  (findGroup_exact_over_substring
    [("1@g.us", ⟨"1@g.us", "My Family Chat", none, 5⟩),
     ("2@g.us", ⟨"2@g.us", "Family Chat", none, 4⟩)] " Family Chat ").1
    ⟨⟨"2@g.us", "Family Chat", none, 4⟩, by decide, by decide⟩

/-- Whether a `getAllGroups` invocation reaches the main
`groupFetchAllParticipating` refresh call (the fetch is skipped exactly
when the unforced cache path serves a non-empty unexpired snapshot whose
count probe reports no change). -/
def reachesFetch (forceRefresh : Bool) (disk : Option GroupsData) (now : Nat)
    (probeResult : Except Unit Nat) : Bool :=
  if forceRefresh then true
  else
    let cachedGroups := loadGroups groupsStorage disk now
    if cachedGroups.length > 0 then
      checkIfGroupCountChanged probeResult cachedGroups.length
    else true

/-- **C4** (amended).  When the full refresh attempt fails with the
rate-limit signal (`error.message === 'rate-overlimit'`), `getAllGroups`
never propagates the error: it always returns some list.  When the
refresh path was reached, the served list is the on-disk snapshot *only
if that snapshot is still within its TTL* (an expired snapshot loads as
`[]` and is not served, contrary to the frozen claim's "even if
expired"); otherwise the last in-memory projection is served. -/
theorem rate_limit_serves_fallback (forceRefresh : Bool) (disk : Option GroupsData)
    (now : Nat) (mem0 : GroupsCache) (probeResult : Except Unit Nat)
    (fetchResult : Except String (List (String × RawGroup)))
    (h : fetchResult = Except.error "rate-overlimit") :
    (∃ l, (getAllGroups forceRefresh disk now mem0 probeResult fetchResult).result =
      Except.ok l) ∧
    (reachesFetch forceRefresh disk now probeResult = true →
      (getAllGroups forceRefresh disk now mem0 probeResult fetchResult).result =
        Except.ok (if (loadGroups groupsStorage disk now).length > 0 then
            loadGroups groupsStorage disk now
          else mem0.map (·.2))) := by
  subst h
  have hbeq : (("rate-overlimit" : String) == "rate-overlimit") = true := rfl
  simp only [getAllGroups, hbeq, if_true]
  constructor
  · split
    · exact ⟨_, rfl⟩
    · split
      · exact ⟨_, rfl⟩
      · exact ⟨_, rfl⟩
  · intro hreach
    split
    · rename_i cached hc
      exfalso
      simp only [reachesFetch] at hreach
      by_cases hf : forceRefresh = true
      · rw [if_pos hf] at hc
        exact Option.noConfusion hc
      · rw [if_neg hf] at hc
        rw [if_neg hf] at hreach
        by_cases hl : (loadGroups groupsStorage disk now).length > 0
        · rw [if_pos hl] at hc hreach
          rw [if_pos hreach] at hc
          exact Option.noConfusion hc
        · rw [if_neg hl] at hc
          exact Option.noConfusion hc
    · by_cases hl : (loadGroups groupsStorage disk now).length > 0
      · rw [if_pos hl, if_pos hl]
      · rw [if_neg hl, if_neg hl]

/-- Witness for `rate_limit_serves_fallback`: forced refresh, empty disk
and a one-entry in-memory cache; the rate-limited fetch serves the
in-memory projection. -/
theorem rate_limit_serves_fallback_witness :
    ((Except.error "rate-overlimit" : Except String (List (String × RawGroup))) =
      Except.error "rate-overlimit") ∧
    (∃ l, (getAllGroups true none 0 [("g@g.us", ⟨"g@g.us", "G", none, 3⟩)]
        (Except.error ()) (Except.error "rate-overlimit")).result = Except.ok l) ∧
    (getAllGroups true none 0 [("g@g.us", ⟨"g@g.us", "G", none, 3⟩)]
        (Except.error ()) (Except.error "rate-overlimit")).result =
      Except.ok (if (loadGroups groupsStorage none 0).length > 0 then
          loadGroups groupsStorage none 0
        else [("g@g.us", (⟨"g@g.us", "G", none, 3⟩ : GroupInfo))].map (·.2)) :=
  ⟨rfl,
   (rate_limit_serves_fallback true none 0 [("g@g.us", ⟨"g@g.us", "G", none, 3⟩)]
     (Except.error ()) (Except.error "rate-overlimit") rfl).1,
   (rate_limit_serves_fallback true none 0 [("g@g.us", ⟨"g@g.us", "G", none, 3⟩)]
     (Except.error ()) (Except.error "rate-overlimit") rfl).2 rfl⟩

/-- **C4** counterexample.  A forced refresh hits the rate limit while
the on-disk snapshot (one group, captured at 0, read at 48 h) is past
its 24 h TTL: `loadGroups` returns `[]`, so the expired snapshot is
*not* served — the empty in-memory projection is returned instead,
contradicting the claim's "falls back to the on-disk snapshot even if
expired". -/
theorem rate_limit_expired_snapshot_dropped_cex :
    (getAllGroups true (some ⟨0, [⟨"g@g.us", "G", none, 3⟩], "1.0"⟩) 172800000 []
        (Except.error ()) (Except.error "rate-overlimit")).result = Except.ok [] ∧
    ¬ ((getAllGroups true (some ⟨0, [⟨"g@g.us", "G", none, 3⟩], "1.0"⟩) 172800000 []
        (Except.error ()) (Except.error "rate-overlimit")).result =
      Except.ok [⟨"g@g.us", "G", none, 3⟩]) := by
  have hres : (getAllGroups true (some ⟨0, [⟨"g@g.us", "G", none, 3⟩], "1.0"⟩)
      172800000 [] (Except.error ()) (Except.error "rate-overlimit")).result =
      Except.ok [] := rfl
  refine ⟨hres, ?_⟩
  intro hcontra
  rw [hres] at hcontra
  exact absurd (Except.ok.inj hcontra) (by decide)

theorem drainQueue_halts_empty (fetch : String → Nat → FetchOutcome) :
    ∀ q, (drainQueue fetch q).2 = [] := by
  intro q
  induction q using drainQueue.induct fetch with
  | case1 => rw [drainQueue]
  | case2 e rest step ih =>
      rw [drainQueue]
      exact ih

theorem drainQueue_all_success (raw : RawGroup) :
    ∀ q, drainQueue (fun _ _ => FetchOutcome.success raw) q = (q, []) := by
  intro q
  induction q using drainQueue.induct (fun _ _ => FetchOutcome.success raw) with
  | case1 => rw [drainQueue]
  | case2 e rest step ih =>
      have hstep : step = (true, [], some (rawToGroupInfo e.jid raw)) := rfl
      rw [hstep] at ih
      simp only [List.append_nil] at ih
      rw [drainQueue]
      simp only [fetchMetadataWithRateLimit]
      rw [List.append_nil, ih]

/-- Number of times an entry with this retry count will be attempted by
a drain in which every fetch hits the rate limit: attempts at counts
`retryCount, …, 3`, then the entry is dropped. -/
def attemptsFor (e : QueueEntry) : Nat := 4 - min e.retryCount 3

theorem drainQueue_all_rateLimit_length :
    ∀ q, (drainQueue (fun _ _ => FetchOutcome.rateLimit) q).1.length =
      (q.map attemptsFor).sum := by
  intro q
  induction q using drainQueue.induct (fun _ _ => FetchOutcome.rateLimit) with
  | case1 =>
      rw [drainQueue]
      rfl
  | case2 e rest step ih =>
      have hstep : step = if e.retryCount < 3
          then (false, [⟨e.jid, e.retryCount + 1⟩], none)
          else ((false, [], none) : Bool × List QueueEntry × Option GroupInfo) := rfl
      rw [hstep] at ih
      rw [drainQueue]
      simp only [fetchMetadataWithRateLimit]
      by_cases h3 : e.retryCount < 3
      · rw [if_pos h3] at ih
        rw [if_pos h3]
        simp only [List.length_cons, List.map_append, List.sum_append,
          List.map_cons, List.map_nil, List.sum_cons, List.sum_nil] at ih ⊢
        rw [ih]
        have h1 : min e.retryCount 3 = e.retryCount := Nat.min_eq_left (by omega)
        have h2 : min (e.retryCount + 1) 3 = e.retryCount + 1 :=
          Nat.min_eq_left (by omega)
        simp only [attemptsFor, h1, h2]
        omega
      · rw [if_neg h3] at ih
        rw [if_neg h3]
        rw [List.append_nil] at ih
        simp only [List.append_nil, List.length_cons, List.map_cons,
          List.sum_cons] at ih ⊢
        rw [ih]
        have h1 : min e.retryCount 3 = 3 := Nat.min_eq_right (by omega)
        simp only [attemptsFor, h1]
        omega

/-- **C5**.  One drain of the metadata queue: when every external fetch
succeeds at first attempt, the drain processes exactly the K enqueued
entries, in FIFO order, and exits with the queue empty; when every fetch
fails with the rate-limit signal, each entry enqueued at attempt count 0
is re-enqueued with `retryCount + 1` and retried up to the ceiling of 3
and then dropped — 4 attempts per entry, as the single-entry trace shows
explicitly — and the drain again exits with the queue empty. -/
theorem queue_drain_convergence (raw : RawGroup) (q qz : List QueueEntry)
    (hz : ∀ e ∈ qz, e.retryCount = 0) :
    drainQueue (fun _ _ => FetchOutcome.success raw) q = (q, []) ∧
    (drainQueue (fun _ _ => FetchOutcome.rateLimit) qz).1.length = 4 * qz.length ∧
    (drainQueue (fun _ _ => FetchOutcome.rateLimit) qz).2 = [] ∧
    drainQueue (fun _ _ => FetchOutcome.rateLimit) [⟨"g@g.us", 0⟩] =
      ([⟨"g@g.us", 0⟩, ⟨"g@g.us", 1⟩, ⟨"g@g.us", 2⟩, ⟨"g@g.us", 3⟩], []) := by
  refine ⟨drainQueue_all_success raw q, ?_, drainQueue_halts_empty _ qz, ?_⟩
  · rw [drainQueue_all_rateLimit_length qz]
    induction qz with
    | nil => rfl
    | cons e t ih =>
        simp only [List.map_cons, List.sum_cons, List.length_cons]
        rw [ih (fun e he => hz e (List.mem_cons_of_mem _ he))]
        have h0 : e.retryCount = 0 := hz e (List.mem_cons_self _ _)
        simp only [attemptsFor, h0]
        omega
  · simp [drainQueue, fetchMetadataWithRateLimit]

/-- Witness for `queue_drain_convergence` on a two-entry queue of fresh
entries and a one-entry queue for the success oracle. -/
theorem queue_drain_convergence_witness :
    (∀ e ∈ ([⟨"a@g.us", 0⟩, ⟨"b@g.us", 0⟩] : List QueueEntry), e.retryCount = 0) ∧
    (drainQueue (fun _ _ => FetchOutcome.success ⟨some "G", none, none⟩)
        [⟨"x@g.us", 2⟩] = ([⟨"x@g.us", 2⟩], []) ∧
      (drainQueue (fun _ _ => FetchOutcome.rateLimit)
        [⟨"a@g.us", 0⟩, ⟨"b@g.us", 0⟩]).1.length =
        4 * ([⟨"a@g.us", 0⟩, ⟨"b@g.us", 0⟩] : List QueueEntry).length ∧
      (drainQueue (fun _ _ => FetchOutcome.rateLimit)
        [⟨"a@g.us", 0⟩, ⟨"b@g.us", 0⟩]).2 = [] ∧
      drainQueue (fun _ _ => FetchOutcome.rateLimit) [⟨"g@g.us", 0⟩] =
        ([⟨"g@g.us", 0⟩, ⟨"g@g.us", 1⟩, ⟨"g@g.us", 2⟩, ⟨"g@g.us", 3⟩], [])) :=
  ⟨by decide,
   queue_drain_convergence ⟨some "G", none, none⟩ [⟨"x@g.us", 2⟩]
     [⟨"a@g.us", 0⟩, ⟨"b@g.us", 0⟩] (by decide)⟩

theorem insertByAge_perm (r : CachedHistoryRow) :
    ∀ l, (insertByAge r l).Perm (r :: l) := by
  intro l
  induction l with
  | nil => simp [insertByAge]
  | cons x xs ih =>
      simp only [insertByAge]
      split
      · exact ((ih.cons x).trans (List.Perm.swap r x xs))
      · exact List.Perm.refl _

theorem sortByAge_perm : ∀ l, (sortByAge l).Perm l := by
  intro l
  induction l with
  | nil => simp [sortByAge]
  | cons x xs ih =>
      simp only [sortByAge]
      exact (insertByAge_perm x (sortByAge xs)).trans (ih.cons x)

theorem perm_any {α : Type} {l1 l2 : List α} (h : l1.Perm l2) (p : α → Bool) :
    l1.any p = l2.any p := by
  cases ha : l1.any p
  · symm
    rw [List.any_eq_false]
    intro x hx
    exact (List.any_eq_false.mp ha) x (h.mem_iff.mpr hx)
  · symm
    rcases List.any_eq_true.mp ha with ⟨x, hx, hpx⟩
    exact List.any_eq_true.mpr ⟨x, h.mem_iff.mp hx, hpx⟩

/-- **C8** (amended).  `cleanExpiredHistoryCache` enumerates the index
and deletes the snapshot file of every enumerated entry older than the
6-hour TTL (age read from the file, entries whose file is already gone
are skipped), but it never rewrites the index: the index is left
unchanged, so an expired entry remains in the index afterwards — it
merely becomes invisible to later enumerations because its file is
missing.  The frozen claim's "removes that entry from the index" does
not hold; see the counterexample. -/
theorem clean_deletes_files_never_index (fsState : HistoryFS) (now : Nat) :
    (cleanExpiredHistoryCache fsState now).index = fsState.index ∧
    ∀ p, p ∈ (cleanExpiredHistoryCache fsState now).files ↔
      (p ∈ fsState.files ∧
        ¬ ∃ ie ∈ fsState.index, ie.1 = p.1 ∧
          ∃ d, fileLookup fsState.files ie.1 = some d ∧
            CACHE_DURATION_HOURS * 3600000 < now - d.fetchedAt) := by
  refine ⟨rfl, ?_⟩
  intro p
  simp only [cleanExpiredHistoryCache, List.mem_filter]
  constructor
  · rintro ⟨hmem, hpred⟩
    refine ⟨hmem, ?_⟩
    rintro ⟨ie, hie, hjid, d, hd, hexp⟩
    have hrow : (⟨ie.1, ie.2.groupName, now - d.fetchedAt, d.messageCount⟩ :
          CachedHistoryRow) ∈ getAllCachedHistories fsState now := by
      unfold getAllCachedHistories
      refine ((sortByAge_perm _).mem_iff).mpr (List.mem_filterMap.mpr ⟨ie, hie, ?_⟩)
      rw [hd]
    have hany : ((getAllCachedHistories fsState now).any (fun h =>
        h.groupJid == p.1 && decide (CACHE_DURATION_HOURS * 3600000 < h.ageMs))) =
        true := by
      refine List.any_eq_true.mpr ⟨_, hrow, ?_⟩
      simp only [Bool.and_eq_true, beq_iff_eq, decide_eq_true_eq]
      exact ⟨hjid, hexp⟩
    rw [hany] at hpred
    simp at hpred
  · rintro ⟨hmem, hnex⟩
    refine ⟨hmem, ?_⟩
    rw [Bool.not_eq_true']
    rw [List.any_eq_false]
    intro row hrow hcond
    apply hnex
    unfold getAllCachedHistories at hrow
    have hrow' := ((sortByAge_perm _).mem_iff).mp hrow
    rcases List.mem_filterMap.mp hrow' with ⟨ie, hie, hf⟩
    rcases hd : fileLookup fsState.files ie.1 with _ | d
    · rw [hd] at hf
      exact absurd hf (by simp)
    · rw [hd] at hf
      have hrow_eq : (⟨ie.1, ie.2.groupName, now - d.fetchedAt, d.messageCount⟩ :
            CachedHistoryRow) = row := by
        simpa using hf
      simp only [Bool.and_eq_true, beq_iff_eq, decide_eq_true_eq] at hcond
      refine ⟨ie, hie, ?_, d, hd, ?_⟩
      · rw [← hcond.1, ← hrow_eq]
      · rw [← hrow_eq] at hcond
        exact hcond.2

/-- **C8** counterexample.  One index entry whose snapshot was captured
at time 0, read at 7 h (> 6 h TTL): the cleaner deletes the snapshot
file but the index entry is still there afterwards, so an expired entry
does remain in the index. -/
theorem clean_keeps_expired_index_entry_cex :
    (cleanExpiredHistoryCache
        ⟨[("g@g.us", ⟨"G", 0⟩)], [("g@g.us", ⟨"g@g.us", "G", [], 0, 0, "p"⟩)]⟩
        25200000).files = [] ∧
    (cleanExpiredHistoryCache
        ⟨[("g@g.us", ⟨"G", 0⟩)], [("g@g.us", ⟨"g@g.us", "G", [], 0, 0, "p"⟩)]⟩
        25200000).index = [("g@g.us", ⟨"G", 0⟩)] := by
  constructor <;> decide

/-- Witness for `clean_deletes_files_never_index` at a concrete state:
an unexpired file (age 1 h) survives the cleaner. -/
theorem clean_deletes_files_never_index_witness :
    ("g@g.us", (⟨"g@g.us", "G", [], 0, 0, "p"⟩ : GroupHistoryData)) ∈
      (cleanExpiredHistoryCache
        ⟨[("g@g.us", ⟨"G", 0⟩)], [("g@g.us", ⟨"g@g.us", "G", [], 0, 0, "p"⟩)]⟩
        3600000).files :=
  ((clean_deletes_files_never_index
      ⟨[("g@g.us", ⟨"G", 0⟩)], [("g@g.us", ⟨"g@g.us", "G", [], 0, 0, "p"⟩)]⟩
      3600000).2 ("g@g.us", ⟨"g@g.us", "G", [], 0, 0, "p"⟩)).mpr
    ⟨by decide, by decide⟩
